import Mathlib

/-!
# Contacts manager API: a verification development

A shallow embedding of `src/server.js` (an Express + SQLite CRUD service for
contacts) and theorems about its request handlers.

Modelling conventions.

* A JavaScript string is a Lean `String` (a sequence of Unicode code points).
  The two regular expressions of `validateContact` and `String.prototype.trim`
  classify a supplementary character the same way as both of its UTF-16 halves,
  and `length` is only ever compared with zero or taken of strings made of
  Basic-Multilingual-Plane characters, so nothing below depends on the
  difference between code points and UTF-16 code units.
* `String.prototype.toLowerCase` is a built-in of the JavaScript host whose
  Unicode tables are not part of the repository.  Every handler takes it as the
  parameter `toLowerCase`; the theorems hold for every such function.
  `asciiLower` is the instance used to evaluate concrete requests (it agrees
  with the built-in on ASCII strings).
* The SQLite table `contacts` is a list of rows in rowid order together with
  the `sqlite_sequence` counter of `AUTOINCREMENT`.  `CURRENT_TIMESTAMP` is the
  argument `now` of a request.  The `:id` path parameter is the integer it
  denotes.  Only constraint violations are modelled as database errors.
-/

namespace ContactsApi

/-! ## JavaScript string primitives -/

/-- ECMAScript `WhiteSpace` and `LineTerminator` code points: the characters
removed by `trim()` and matched by the regular-expression class `\s`. -/
def isWhiteSpace (c : Char) : Bool :=
  c.toNat == 0x09 || c.toNat == 0x0A || c.toNat == 0x0B || c.toNat == 0x0C ||
  c.toNat == 0x0D || c.toNat == 0x20 || c.toNat == 0xA0 || c.toNat == 0x1680 ||
  (0x2000 ≤ c.toNat && c.toNat ≤ 0x200A) ||
  c.toNat == 0x2028 || c.toNat == 0x2029 || c.toNat == 0x202F ||
  c.toNat == 0x205F || c.toNat == 0x3000 || c.toNat == 0xFEFF

/-- The regular-expression class `\d`. -/
def isDigit (c : Char) : Bool :=
  0x30 ≤ c.toNat && c.toNat ≤ 0x39

/-- Characters of a string with leading and trailing white space removed. -/
def trimChars (s : List Char) : List Char :=
  (s.dropWhile isWhiteSpace).rdropWhile isWhiteSpace

/-- The method `String.prototype.trim`. -/
def trim (s : String) : String :=
  ⟨trimChars s.data⟩

/-- Lower-casing of the ASCII letters, every other character unchanged: the
instance of `toLowerCase` used to evaluate concrete requests. -/
def asciiLower (s : String) : String :=
  ⟨s.data.map Char.toLower⟩

/-! ## Regular expressions

Both regular expressions of the source are anchored sequences of quantified
character classes, `^c₁{m₁,n₁} … cₖ{mₖ,nₖ}$`. -/

/-- A quantified character class `cls{min,max}`; `max = none` is unbounded. -/
structure Atom where
  cls : Char → Bool
  min : Nat
  max : Option Nat

/-- Whether a repetition count is within the quantifier of an atom. -/
def Atom.inRange (a : Atom) (k : Nat) : Bool :=
  decide (a.min ≤ k) &&
    (match a.max with
     | none => true
     | some m => decide (k ≤ m))

/-- The method `RegExp.prototype.test` for an anchored sequence of atoms: a backtracking
search over the number of characters each atom consumes. -/
def test : List Atom → List Char → Bool
  | [], s => s.isEmpty
  | a :: rest, s =>
    (List.range (s.length + 1)).any fun k =>
      a.inRange k && (s.take k).all a.cls && test rest (s.drop k)

/-- A word accepted by one atom: its length is within the quantifier and all of
its characters are in the class. -/
def Atom.Accepts (a : Atom) (w : List Char) : Prop :=
  a.min ≤ w.length ∧ (∀ m, a.max = some m → w.length ≤ m) ∧ ∀ c ∈ w, a.cls c = true

/-- The language of an anchored sequence of atoms: the concatenations of one
accepted word per atom. -/
def Matches : List Atom → List Char → Prop
  | [], s => s = []
  | a :: rest, s => ∃ w t, s = w ++ t ∧ a.Accepts w ∧ Matches rest t

/-- The class `[^\s@]`. -/
def notSpaceAt (c : Char) : Bool :=
  !(isWhiteSpace c || c == '@')

/-- The class `[\d\s\-()]`. -/
def phoneChar (c : Char) : Bool :=
  isDigit c || isWhiteSpace c || c == '-' || c == '(' || c == ')'

/-- A single literal character. -/
def lit (ch : Char) : Atom :=
  ⟨fun c => c == ch, 1, some 1⟩

/-- The expression `/^[^\s@]+@[^\s@]+\.[^\s@]+$/`. -/
def emailRe : List Atom :=
  [⟨notSpaceAt, 1, none⟩, lit '@', ⟨notSpaceAt, 1, none⟩, lit '.', ⟨notSpaceAt, 1, none⟩]

/-- The expression `/^\+?[\d\s\-()]{10,25}$/`. -/
def phoneRe : List Atom :=
  [⟨fun c => c == '+', 0, some 1⟩, ⟨phoneChar, 10, some 25⟩]

/-! ## Validation -/

/-- A candidate contact `{ name, email, phone }`; a field is absent
(`undefined` or `null`) or a string.  A field that is present but not a string
is outside this type: when it is truthy, `validateContact` throws on its
`trim()` and the error middleware answers 500. -/
structure Contact where
  name : Option String
  email : Option String
  phone : Option String
deriving DecidableEq, Repr

/-- The test `!x || x.trim().length === 0` on an absent-or-string field. -/
def isMissing : Option String → Bool
  | none => true
  | some s => s == "" || (trim s).length == 0

/-- The function `validateContact`: the `errors` object as the list of its entries in
insertion order. -/
def validateContact (contact : Contact) : List (String × String) :=
  let errors : List (String × String) := []
  let errors :=
    if isMissing contact.name then errors ++ [("name", "Name is required")] else errors
  let errors :=
    if isMissing contact.email then errors ++ [("email", "Email is required")]
    else if !(test emailRe ((contact.email.getD "").data)) then
      errors ++ [("email", "Invalid email format")]
    else errors
  let errors :=
    if isMissing contact.phone then errors ++ [("phone", "Phone is required")]
    else if !(test phoneRe ((contact.phone.getD "").data)) then
      errors ++ [("phone", "Phone must be 10-25 characters")]
    else errors
  errors

/-- The call `Object.keys(errors)`. -/
def keys (errors : List (String × String)) : List String :=
  errors.map Prod.fst

/-! ## The `contacts` table -/

/-- A row of the table `contacts`. -/
structure Row where
  id : Nat
  name : String
  email : String
  phone : String
  created_at : String
  updated_at : String
deriving DecidableEq, Repr

/-- The database: the rows of `contacts` in rowid order and the largest id ever
assigned (`sqlite_sequence`, kept by `AUTOINCREMENT`). -/
structure Db where
  rows : List Row
  seq : Nat
deriving DecidableEq, Repr

/-- The database right after `CREATE TABLE IF NOT EXISTS contacts` on a new file. -/
def emptyDb : Db :=
  ⟨[], 0⟩

/-- The query `SELECT * FROM contacts WHERE id = ?` through `db.get`: the first row,
if any. -/
def selectById (db : Db) (id : Nat) : Option Row :=
  db.rows.find? fun r => r.id == id

/-- The query `SELECT id FROM contacts WHERE email = ?` through `db.get`. -/
def selectByEmail (db : Db) (email : String) : Option Row :=
  db.rows.find? fun r => r.email == email

/-- The query `SELECT id FROM contacts WHERE email = ? AND id != ?` through `db.get`. -/
def selectByEmailExcept (db : Db) (email : String) (id : Nat) : Option Row :=
  db.rows.find? fun r => r.email == email && r.id != id

/-- The largest id among the rows (0 for an empty table). -/
def maxId (rows : List Row) : Nat :=
  rows.foldl (fun m r => max m r.id) 0

/-- The statement `INSERT INTO contacts (name, email, phone) VALUES (?, ?, ?)`: fails on the
`UNIQUE` constraint of `email`; otherwise the new id is one more than the
largest id ever present, both timestamps default to `CURRENT_TIMESTAMP`, and
the new database comes with `this.lastID`. -/
def insert (db : Db) (name email phone now : String) : Except String (Db × Nat) :=
  if db.rows.any fun r => r.email == email then
    .error "SQLITE_CONSTRAINT: UNIQUE constraint failed: contacts.email"
  else
    let lastID := max db.seq (maxId db.rows) + 1
    .ok (⟨db.rows ++ [⟨lastID, name, email, phone, now, now⟩], lastID⟩, lastID)

/-- One assignment `col = ?` of an `UPDATE`. -/
def assign (r : Row) (col : String) (v : String) : Row :=
  if col == "name" then { r with name := v }
  else if col == "email" then { r with email := v }
  else if col == "phone" then { r with phone := v }
  else r

/-- The row after `SET col₁ = ?, …, updated_at = CURRENT_TIMESTAMP`. -/
def applySets (sets : List (String × Option String)) (now : String) (r : Row) : Row :=
  { sets.foldl (fun acc s => assign acc s.1 (s.2.getD "")) r with updated_at := now }

/-- The statement `UPDATE contacts SET col₁ = ?, …, updated_at = CURRENT_TIMESTAMP WHERE id = ?`
with bound values that are `NULL` (`none`) or text.  A statement that touches a
row fails on a `NOT NULL` column set to `NULL` and on the `UNIQUE` constraint of
`email`. -/
def update (db : Db) (sets : List (String × Option String)) (now : String) (id : Nat) :
    Except String Db :=
  match selectById db id with
  | none => .ok db
  | some _ =>
    match sets.find? fun s => s.2.isNone with
    | some s => .error ("SQLITE_CONSTRAINT: NOT NULL constraint failed: contacts." ++ s.1)
    | none =>
      if db.rows.any fun r => r.id == id &&
          db.rows.any fun o => o.id != id && o.email == (applySets sets now r).email then
        .error "SQLITE_CONSTRAINT: UNIQUE constraint failed: contacts.email"
      else
        .ok ⟨db.rows.map fun r => if r.id == id then applySets sets now r else r, db.seq⟩

/-- The statement `DELETE FROM contacts WHERE id = ?`. -/
def deleteById (db : Db) (id : Nat) : Db :=
  ⟨db.rows.filter fun r => r.id != id, db.seq⟩

/-! ## Responses -/

/-- The `pagination` object of a listing. -/
structure Pagination where
  total : Nat
  page : Nat
  limit : Nat
  totalPages : Nat
deriving DecidableEq, Repr

/-- The JSON bodies the handlers send. -/
inductive Body where
  /-- A contact row. -/
  | contact (row : Row)
  /-- The object `{ error }`. -/
  | error (error : String)
  /-- The object `{ error, errors }`. -/
  | validation (error : String) (errors : List (String × String))
  /-- The object `{ error, details }`. -/
  | failure (error : String) (details : String)
  /-- The object `{ message, id }`. -/
  | deleted (message : String) (id : Nat)
  /-- The object `{ data, pagination }`. -/
  | listing (data : List Row) (pagination : Pagination)
  /-- The body of `res.json(undefined)`. -/
  | empty
deriving DecidableEq, Repr

/-- An HTTP response: status code and JSON body. -/
structure Response where
  status : Nat
  body : Body
deriving DecidableEq, Repr

/-- The response of the error-handling middleware to an exception thrown by a handler. -/
def uncaught (details : String) : Response :=
  ⟨500, .failure "Something went wrong!" details⟩

/-! ## Listing -/

/-- The query string of `GET /api/contacts`; `page` and `limit` carry the value
of `parseInt` when present. -/
structure Query where
  search : Option String
  sortBy : Option String
  order : Option String
  page : Option Nat
  limit : Option Nat
deriving DecidableEq, Repr

/-- The SQLite operator `text LIKE pattern`: `%` matches any run of characters,
`_` any one character, every other character itself up to ASCII letter case. -/
def like : List Char → List Char → Bool
  | [], t => t.isEmpty
  | p :: ps, t =>
    if p == '%' then (List.range (t.length + 1)).any fun k => like ps (t.drop k)
    else
      match t with
      | [] => false
      | c :: cs => (p == '_' || p.toLower == c.toLower) && like ps cs

/-- The resolved sort column `sortField`. -/
def sortField (q : Query) : String :=
  let sortBy := q.sortBy.getD "name"
  let validSortFields := ["name", "email", "phone", "created_at"]
  if validSortFields.contains sortBy then sortBy else "name"

/-- The resolved direction `sortOrder`. -/
def sortOrder (toLowerCase : String → String) (q : Query) : String :=
  let order := q.order.getD "asc"
  if toLowerCase order == "desc" then "DESC" else "ASC"

/-- The text appended to the statement for ordering. -/
def orderByClause (toLowerCase : String → String) (q : Query) : String :=
  " ORDER BY " ++ sortField q ++ " " ++ sortOrder toLowerCase q

/-- Whether `if (search)` takes the branch: the parameter is a non-empty string. -/
def hasSearch (q : Query) : Bool :=
  match q.search with
  | none => false
  | some s => s != ""

/-- The text of the listing statement `sql`. -/
def listSql (toLowerCase : String → String) (q : Query) : String :=
  let sql := "SELECT * FROM contacts WHERE 1=1"
  let sql := if hasSearch q then sql ++ " AND (name LIKE ? OR email LIKE ? OR phone LIKE ?)" else sql
  let sql := sql ++ orderByClause toLowerCase q
  sql ++ " LIMIT ? OFFSET ?"

/-- The value of a sortable column in a row. -/
def column (field : String) (r : Row) : String :=
  if field == "email" then r.email
  else if field == "phone" then r.phone
  else if field == "created_at" then r.created_at
  else r.name

/-- The comparison of `ORDER BY field order`. -/
def sortsBefore (field order : String) (a b : Row) : Bool :=
  if order == "DESC" then decide (column field b ≤ column field a)
  else decide (column field a ≤ column field b)

/-- The rows selected by the listing statement: the search filter, the
ordering, then `LIMIT ? OFFSET ?` (a negative offset skips nothing). -/
def selectPage (toLowerCase : String → String) (db : Db) (q : Query) : List Row :=
  let page := q.page.getD 1
  let limit := q.limit.getD 10
  let rows :=
    if hasSearch q then
      let searchPattern := "%" ++ (q.search.getD "") ++ "%"
      db.rows.filter fun r =>
        like searchPattern.data r.name.data || like searchPattern.data r.email.data ||
          like searchPattern.data r.phone.data
    else db.rows
  let rows := rows.insertionSort
    fun a b => sortsBefore (sortField q) (sortOrder toLowerCase q) a b = true
  let offset : Int := ((page : Int) - 1) * (limit : Int)
  (rows.drop offset.toNat).take limit

/-- The expression `Math.ceil(a / b)` for natural numbers `a` and `b > 0` (exact below 2^53). -/
def ceilDiv (a b : Nat) : Nat :=
  (a + b - 1) / b

/-- The handler of `GET /api/contacts`. -/
def listContacts (toLowerCase : String → String) (db : Db) (q : Query) : Response :=
  let page := q.page.getD 1
  let limit := q.limit.getD 10
  let rows := selectPage toLowerCase db q
  let total := db.rows.length
  ⟨200, .listing rows ⟨total, page, limit, ceilDiv total limit⟩⟩

/-! ## Handlers of a single contact -/

/-- The handler of `GET /api/contacts/:id`. -/
def getContact (db : Db) (id : Nat) : Response :=
  match selectById db id with
  | none => ⟨404, .error "Contact not found"⟩
  | some row => ⟨200, .contact row⟩

/-- The response that sends the row read back after a write. -/
def sendRow (status : Nat) (row : Option Row) : Response :=
  match row with
  | some r => ⟨status, .contact r⟩
  | none => ⟨status, .empty⟩

/-- The handler of `POST /api/contacts`, for a body whose fields are absent or
strings (the domain of `Contact`). -/
def createContact (toLowerCase : String → String) (now : String) (db : Db) (body : Contact) :
    Db × Response :=
  let errors := validateContact body
  if (keys errors).length > 0 then
    (db, ⟨400, .validation "Validation failed" errors⟩)
  else
    match body.name, body.email, body.phone with
    | some name, some email, some phone =>
      match selectByEmail db (toLowerCase email) with
      | some _ =>
        (db, ⟨400, .validation "Validation failed" [("email", "Email already exists")]⟩)
      | none =>
        match insert db (trim name) (toLowerCase (trim email)) (trim phone) now with
        | .error message => (db, ⟨500, .failure "Database error" message⟩)
        | .ok (db1, lastID) => (db1, sendRow 201 (selectById db1 lastID))
    | _, _, _ => (db, uncaught "TypeError")

/-- The handler of `PUT /api/contacts/:id`, for a body whose fields are absent
or strings (the domain of `Contact`). -/
def replaceContact (toLowerCase : String → String) (now : String) (db : Db) (id : Nat)
    (body : Contact) : Db × Response :=
  let errors := validateContact body
  if (keys errors).length > 0 then
    (db, ⟨400, .validation "Validation failed" errors⟩)
  else
    match body.name, body.email, body.phone with
    | some name, some email, some phone =>
      match selectById db id with
      | none => (db, ⟨404, .error "Contact not found"⟩)
      | some _ =>
        match selectByEmailExcept db (toLowerCase email) id with
        | some _ =>
          (db, ⟨400, .validation "Validation failed" [("email", "Email already exists")]⟩)
        | none =>
          let sets := [("name", some (trim name)), ("email", some (toLowerCase (trim email))),
            ("phone", some (trim phone))]
          match update db sets now id with
          | .error message => (db, ⟨500, .failure "Database error" message⟩)
          | .ok db1 => (db1, sendRow 200 (selectById db1 id))
    | _, _, _ => (db, uncaught "TypeError")

/-- The handler of `PATCH /api/contacts/:id`.  The body is the list of its entries (distinct
keys, as `JSON.parse` produces); a value is `none` when it binds `NULL` and the
text stored in the column otherwise. -/
def patchContact (now : String) (db : Db) (id : Nat) (updates : List (String × Option String)) :
    Db × Response :=
  match selectById db id with
  | none => (db, ⟨404, .error "Contact not found"⟩)
  | some _ =>
    let allowedFields := ["name", "email", "phone"]
    let fields := (updates.map Prod.fst).filter fun key => allowedFields.contains key
    if fields.length == 0 then
      (db, ⟨400, .error "No valid fields to update"⟩)
    else
      let sets := fields.map fun f => (f, (updates.lookup f).join)
      match update db sets now id with
      | .error message => (db, ⟨500, .failure "Database error" message⟩)
      | .ok db1 => (db1, sendRow 200 (selectById db1 id))

/-- The handler of `DELETE /api/contacts/:id`. -/
def deleteContact (db : Db) (id : Nat) : Db × Response :=
  match selectById db id with
  | none => (db, ⟨404, .error "Contact not found"⟩)
  | some _ => (deleteById db id, ⟨200, .deleted "Contact deleted successfully" id⟩)

/-! ## Request sequences -/

/-- A request that can change the table. -/
inductive Request where
  | post (body : Contact)
  | put (id : Nat) (body : Contact)
  | patch (id : Nat) (updates : List (String × Option String))
  | delete (id : Nat)
deriving DecidableEq, Repr

/-- The database after one request served at time `now`. -/
def step (toLowerCase : String → String) (db : Db) (now : String) : Request → Db
  | .post body => (createContact toLowerCase now db body).1
  | .put id body => (replaceContact toLowerCase now db id body).1
  | .patch id updates => (patchContact now db id updates).1
  | .delete id => (deleteContact db id).1

/-- The database after a sequence of timed requests. -/
def run (toLowerCase : String → String) (db : Db) : List (String × Request) → Db
  | [] => db
  | (now, req) :: rest => run toLowerCase (step toLowerCase db now req) rest

/-! ## Sample requests -/

/-- The contact of the example in the specification. -/
def johnDoe : Contact :=
  ⟨some "John Doe", some "John.Doe@Example.com", some "+1234567890"⟩

/-- A second contact whose email differs from that of `johnDoe` in letter case only. -/
def johnShout : Contact :=
  ⟨some "Johnny", some "JOHN.DOE@EXAMPLE.COM", some "(555) 010-9999"⟩

/-- A phone number of 26 characters: a plus sign and 25 digits. -/
def longPhone : String :=
  "+1234567890123456789012345"

/-- A second sample contact. -/
def janeRoe : Contact :=
  ⟨some "Jane Roe", some "jane.roe@example.com", some "555 010 2222"⟩

/-- Two creations followed by a `PATCH` of the second contact with the email of
the first one in capitals. -/
def patchTrace : List (String × Request) :=
  [("2024-05-01 10:00:00", .post johnDoe), ("2024-05-01 10:00:05", .post janeRoe),
    ("2024-05-01 10:00:09", .patch 2 [("email", some "JOHN.DOE@EXAMPLE.COM")])]

/-- The email property of the data model: every stored email equals its own
trimmed lower-casing, and no two rows have emails with the same lower-casing. -/
def EmailInvariant (toLowerCase : String → String) (db : Db) : Prop :=
  (∀ r ∈ db.rows, r.email = toLowerCase (trim r.email)) ∧
    db.rows.Pairwise fun a b => toLowerCase a.email ≠ toLowerCase b.email

/-- Whether a request is a `PATCH`. -/
def Request.isPatch : Request → Bool
  | .patch _ _ => true
  | _ => false

/-- The table property kept by `POST`, `PUT` and `DELETE`: every stored email is
a fixed point of the lower-casing and has no white space, and two rows differ
in id and in email. -/
def StoreOk (toLowerCase : String → String) (db : Db) : Prop :=
  (∀ r ∈ db.rows, toLowerCase r.email = r.email ∧ ∀ c ∈ r.email.data, isWhiteSpace c = false) ∧
    db.rows.Pairwise fun a b => a.id ≠ b.id ∧ a.email ≠ b.email

end ContactsApi

namespace ContactsApi

/-! ## Regular expressions: the search decides the language -/

theorem inRange_iff (a : Atom) (k : Nat) :
    a.inRange k = true ↔ a.min ≤ k ∧ ∀ m, a.max = some m → k ≤ m := by
  unfold Atom.inRange
  cases h : a.max <;> simp

theorem test_iff_matches (re : List Atom) (s : List Char) :
    test re s = true ↔ Matches re s := by
  induction re generalizing s with
  | nil => simp [test, Matches]
  | cons a rest ih =>
    simp only [test, Matches, List.any_eq_true, List.mem_range, Bool.and_eq_true, ih,
      inRange_iff, List.all_eq_true]
    constructor
    · rintro ⟨k, hk, ⟨⟨hmin, hmax⟩, hall⟩, hrest⟩
      have hlen : (s.take k).length = k := by
        rw [List.length_take]; omega
      refine ⟨s.take k, s.drop k, (List.take_append_drop k s).symm, ⟨?_, ?_, hall⟩, hrest⟩
      · rw [hlen]; exact hmin
      · intro m hm; rw [hlen]; exact hmax m hm
    · rintro ⟨w, t, rfl, ⟨hmin, hmax, hall⟩, hrest⟩
      refine ⟨w.length, ?_, ⟨⟨hmin, hmax⟩, ?_⟩, ?_⟩
      · simp; omega
      · simpa using hall
      · simpa using hrest

theorem matches_chars (P : Char → Prop) (re : List Atom) (s : List Char)
    (hcls : ∀ a ∈ re, ∀ c, a.cls c = true → P c) (h : Matches re s) : ∀ c ∈ s, P c := by
  induction re generalizing s with
  | nil =>
    simp only [Matches] at h
    subst h
    simp
  | cons a rest ih =>
    obtain ⟨w, t, rfl, ⟨_, _, hall⟩, hrest⟩ := h
    intro c hc
    rcases List.mem_append.mp hc with hw | ht
    · exact hcls a (List.mem_cons_self _ _) c (hall c hw)
    · exact ih t (fun b hb => hcls b (List.mem_cons_of_mem _ hb)) hrest c ht

theorem email_no_white_space (s : List Char) (h : Matches emailRe s) :
    ∀ c ∈ s, isWhiteSpace c = false := by
  apply matches_chars (fun c => isWhiteSpace c = false) emailRe s _ h
  intro a ha c hc
  simp only [emailRe, lit, List.mem_cons, List.mem_singleton, List.not_mem_nil, or_false] at ha
  rcases ha with rfl | rfl | rfl | rfl | rfl
  · have hc2 : isWhiteSpace c = false ∧ ¬c = '@' := by simpa [notSpaceAt] using hc
    exact hc2.1
  · have : c = '@' := by simpa using hc
    subst this; decide
  · have hc2 : isWhiteSpace c = false ∧ ¬c = '@' := by simpa [notSpaceAt] using hc
    exact hc2.1
  · have : c = '.' := by simpa using hc
    subst this; decide
  · have hc2 : isWhiteSpace c = false ∧ ¬c = '@' := by simpa [notSpaceAt] using hc
    exact hc2.1

theorem email_length (s : List Char) (h : Matches emailRe s) : 5 ≤ s.length := by
  obtain ⟨w1, t1, rfl, ⟨h1, _, _⟩, w2, t2, rfl, ⟨h2, _, _⟩, w3, t3, rfl, ⟨h3, _, _⟩,
    w4, t4, rfl, ⟨h4, _, _⟩, w5, t5, rfl, ⟨h5, _, _⟩, h6⟩ := h
  simp only [lit] at h1 h2 h3 h4 h5
  simp only [List.length_append]
  omega

theorem phone_length (s : List Char) (h : Matches phoneRe s) :
    10 ≤ s.length ∧ s.length ≤ 26 := by
  obtain ⟨w1, t1, rfl, ⟨_, h1, _⟩, w2, t2, rfl, ⟨h2, h3, _⟩, h4⟩ := h
  simp only [Matches] at h4
  subst h4
  have a1 := h1 1 rfl
  have a3 := h3 25 rfl
  simp only [List.length_append, List.length_nil] at *
  omega

theorem trimChars_eq_self (s : List Char) (h : ∀ c ∈ s, isWhiteSpace c = false) :
    trimChars s = s := by
  unfold trimChars
  have h1 : s.dropWhile isWhiteSpace = s := by
    cases s with
    | nil => rfl
    | cons c t => simp [List.dropWhile, h c (List.mem_cons_self _ _)]
  rw [h1, List.rdropWhile_eq_self_iff]
  intro hl
  simp [h _ (List.getLast_mem hl)]

theorem trim_eq_self_of_email (e : String) (h : Matches emailRe e.data) : trim e = e := by
  unfold trim
  rw [trimChars_eq_self _ (email_no_white_space _ h)]

theorem trim_eq_empty_iff (s : String) : (trim s).length = 0 ↔ trim s = "" := by
  rw [String.ext_iff]
  show (trimChars s.data).length = 0 ↔ trimChars s.data = []
  exact List.length_eq_zero

theorem isMissing_iff (o : Option String) :
    isMissing o = true ↔ o = none ∨ ∃ s, o = some s ∧ trim s = "" := by
  cases o with
  | none => simp [isMissing]
  | some s =>
    simp only [isMissing, Bool.or_eq_true, beq_iff_eq, trim_eq_empty_iff, reduceCtorEq,
      Option.some.injEq, exists_eq_left', false_or]
    constructor
    · rintro (rfl | h)
      · decide
      · exact h
    · exact Or.inr

theorem keys_validateContact (c : Contact) :
    keys (validateContact c) =
      (if isMissing c.name then ["name"] else []) ++
      (if isMissing c.email || !(test emailRe ((c.email.getD "").data)) then ["email"] else []) ++
      (if isMissing c.phone || !(test phoneRe ((c.phone.getD "").data)) then ["phone"] else []) := by
  unfold validateContact keys
  cases isMissing c.name <;> cases isMissing c.email <;> cases isMissing c.phone <;>
    cases test emailRe ((c.email.getD "").data) <;>
    cases test phoneRe ((c.phone.getD "").data) <;> rfl

theorem valid_fields (c : Contact) (h : validateContact c = []) :
    ∃ n e p, c = ⟨some n, some e, some p⟩ ∧ Matches emailRe e.data := by
  have hk : keys (validateContact c) = [] := by rw [h]; rfl
  rw [keys_validateContact] at hk
  rcases c with ⟨_ | n, _ | e, _ | p⟩
  all_goals try (simp [isMissing] at hk)
  refine ⟨n, e, p, rfl, ?_⟩
  rw [← test_iff_matches]
  by_contra hne
  simp [hne] at hk

theorem le_foldl_max (rows : List Row) (m : Nat) :
    m ≤ rows.foldl (fun m r => max m r.id) m ∧
      ∀ r ∈ rows, r.id ≤ rows.foldl (fun m r => max m r.id) m := by
  induction rows generalizing m with
  | nil => simp
  | cons x xs ih =>
    simp only [List.foldl_cons, List.mem_cons, forall_eq_or_imp]
    have h := ih (max m x.id)
    refine ⟨le_trans (le_max_left _ _) h.1, le_trans (le_max_right _ _) h.1, h.2⟩

theorem le_maxId (rows : List Row) : ∀ r ∈ rows, r.id ≤ maxId rows :=
  (le_foldl_max rows 0).2

theorem selectById_eq_none (db : Db) (id : Nat) :
    selectById db id = none ↔ ∀ r ∈ db.rows, r.id ≠ id := by
  simp [selectById]

theorem selectById_append_new (rows : List Row) (seq : Nat) (row : Row)
    (h : ∀ r ∈ rows, r.id ≠ row.id) : selectById ⟨rows ++ [row], seq⟩ row.id = some row := by
  have h1 : rows.find? (fun r => r.id == row.id) = none := by
    simpa using h
  simp [selectById, List.find?_append, h1]

theorem createContact_of_valid (toLowerCase : String → String) (now : String) (db : Db)
    (n e p : String) (h : validateContact ⟨some n, some e, some p⟩ = []) :
    createContact toLowerCase now db ⟨some n, some e, some p⟩ =
      match selectByEmail db (toLowerCase e) with
      | some _ =>
        (db, ⟨400, .validation "Validation failed" [("email", "Email already exists")]⟩)
      | none =>
        (⟨db.rows ++ [⟨max db.seq (maxId db.rows) + 1, trim n, toLowerCase e, trim p, now, now⟩],
            max db.seq (maxId db.rows) + 1⟩,
          ⟨201, .contact
            ⟨max db.seq (maxId db.rows) + 1, trim n, toLowerCase e, trim p, now, now⟩⟩) := by
  obtain ⟨n1, e1, p1, hc, hm⟩ := valid_fields _ h
  cases hc
  simp only [createContact, h, keys, List.map_nil, List.length_nil, gt_iff_lt, lt_self_iff_false,
    if_false]
  cases hsel : selectByEmail db (toLowerCase e) with
  | some r => rfl
  | none =>
    have hany : (db.rows.any fun r => r.email == toLowerCase e) = false := by
      simp only [selectByEmail, List.find?_eq_none] at hsel
      simpa using hsel
    have hnew := selectById_append_new db.rows (max db.seq (maxId db.rows) + 1)
      ⟨max db.seq (maxId db.rows) + 1, trim n, toLowerCase e, trim p, now, now⟩
      (fun r hr => by have := le_maxId db.rows r hr; simp only; omega)
    simp only at hnew
    simp only [insert, trim_eq_self_of_email _ hm, hany, Bool.false_eq_true, if_false, hnew,
      sendRow]

theorem field_error_iff (re : List Atom) (o : Option String) :
    (isMissing o || !(test re ((o.getD "").data))) = true ↔
      (o = none ∨ ∃ s, o = some s ∧ (trim s = "" ∨ ¬ Matches re s.data)) := by
  rw [Bool.or_eq_true, isMissing_iff, Bool.not_eq_true', ← Bool.not_eq_true, test_iff_matches]
  cases o with
  | none => simp
  | some s => simp

/-- C1: for a candidate contact whose fields are absent or strings, the errors
object of `validateContact` has the key of a field exactly when that field
breaks its own rule (name: absent or blank after trimming; email and phone:
absent, blank after trimming, or outside the language of the regular
expression); it has no other key and no key twice, it is empty exactly when no
rule is broken, and the contact with the email `invalid-email` gets exactly the
key `email`. -/
theorem validateContact_reports_each_violation (c : Contact) :
    ("name" ∈ keys (validateContact c) ↔
      (c.name = none ∨ ∃ s, c.name = some s ∧ trim s = "")) ∧
    ("email" ∈ keys (validateContact c) ↔
      (c.email = none ∨ ∃ s, c.email = some s ∧ (trim s = "" ∨ ¬ Matches emailRe s.data))) ∧
    ("phone" ∈ keys (validateContact c) ↔
      (c.phone = none ∨ ∃ s, c.phone = some s ∧ (trim s = "" ∨ ¬ Matches phoneRe s.data))) ∧
    (∀ k ∈ keys (validateContact c), k = "name" ∨ k = "email" ∨ k = "phone") ∧
    (keys (validateContact c)).Nodup ∧
    (validateContact c = [] ↔
      ¬ (c.name = none ∨ ∃ s, c.name = some s ∧ trim s = "") ∧
      ¬ (c.email = none ∨ ∃ s, c.email = some s ∧ (trim s = "" ∨ ¬ Matches emailRe s.data)) ∧
      ¬ (c.phone = none ∨ ∃ s, c.phone = some s ∧ (trim s = "" ∨ ¬ Matches phoneRe s.data))) ∧
    validateContact ⟨some "Jane Doe", some "invalid-email", some "+1234567890"⟩ =
      [("email", "Invalid email format")] := by
  have hnil : validateContact c = [] ↔ keys (validateContact c) = [] := by
    unfold keys
    exact List.map_eq_nil_iff.symm
  rw [hnil, keys_validateContact, ← isMissing_iff, ← field_error_iff emailRe,
    ← field_error_iff phoneRe]
  have e1 : ("name" = "email") = False := by decide
  have e2 : ("name" = "phone") = False := by decide
  have e3 : ("email" = "name") = False := by decide
  have e4 : ("email" = "phone") = False := by decide
  have e5 : ("phone" = "name") = False := by decide
  have e6 : ("phone" = "email") = False := by decide
  refine ⟨?_, ?_, ?_, ?_, ?_, ?_, by decide⟩ <;>
    cases isMissing c.name <;>
    cases (isMissing c.email || !(test emailRe ((c.email.getD "").data))) <;>
    cases (isMissing c.phone || !(test phoneRe ((c.phone.getD "").data))) <;>
    simp [e1, e2, e3, e4, e5, e6]

/-- C2: a contact that passes `validateContact` and whose lower-cased email is
not stored is created with status 201; the returned row has an id no stored
contact had, the trimmed name and phone and the lower-cased trimmed email; the
table afterwards is the old table followed by that row, and reading the
returned id answers 200 with the same row. -/
theorem createContact_inserts_normalized (toLowerCase : String → String) (now : String) (db : Db)
    (body : Contact) (email : String)
    (hvalid : validateContact body = [])
    (hemail : body.email = some email)
    (hfresh : ∀ r ∈ db.rows, r.email ≠ toLowerCase email) :
    ∃ name phone row db1,
      body = ⟨some name, some email, some phone⟩ ∧
      createContact toLowerCase now db body = (db1, ⟨201, .contact row⟩) ∧
      (∀ r ∈ db.rows, r.id ≠ row.id) ∧
      row.name = trim name ∧ row.email = toLowerCase (trim email) ∧ row.phone = trim phone ∧
      db1.rows = db.rows ++ [row] ∧
      getContact db1 row.id = ⟨200, .contact row⟩ := by
  obtain ⟨n, e, p, hc, hm⟩ := valid_fields _ hvalid
  subst hc
  have hee : e = email := by simpa using hemail
  subst hee
  have hsel : selectByEmail db (toLowerCase e) = none := by
    simp only [selectByEmail, List.find?_eq_none]
    intro r hr
    simpa using hfresh r hr
  have hids : ∀ r ∈ db.rows, r.id ≠ max db.seq (maxId db.rows) + 1 := by
    intro r hr
    have := le_maxId db.rows r hr
    omega
  refine ⟨n, p, ⟨max db.seq (maxId db.rows) + 1, trim n, toLowerCase e, trim p, now, now⟩,
    ⟨db.rows ++ [⟨max db.seq (maxId db.rows) + 1, trim n, toLowerCase e, trim p, now, now⟩],
      max db.seq (maxId db.rows) + 1⟩, rfl, ?_, hids, rfl, ?_, rfl, rfl, ?_⟩
  · rw [createContact_of_valid toLowerCase now db n e p hvalid, hsel]
  · rw [trim_eq_self_of_email e hm]
  · have hnew := selectById_append_new db.rows (max db.seq (maxId db.rows) + 1)
      ⟨max db.seq (maxId db.rows) + 1, trim n, toLowerCase e, trim p, now, now⟩ hids
    simp only at hnew
    simp only [getContact, hnew]

/-- The example of the specification: `John.Doe@Example.com` is stored and read
back as `john.doe@example.com`. -/
theorem createContact_inserts_normalized_witness :
    validateContact johnDoe = [] ∧
    ∃ row db1,
      createContact asciiLower "2024-05-01 10:00:00" emptyDb johnDoe = (db1, ⟨201, .contact row⟩) ∧
      row.email = "john.doe@example.com" ∧
      getContact db1 row.id = ⟨200, .contact row⟩ := by
  refine ⟨by decide, ?_⟩
  obtain ⟨name, phone, row, db1, _, hc, _, _, he, _, _, hg⟩ :=
    createContact_inserts_normalized asciiLower "2024-05-01 10:00:00" emptyDb johnDoe
      "John.Doe@Example.com" (by decide) rfl (by simp [emptyDb])
  exact ⟨row, db1, hc, by rw [he]; decide, hg⟩

/-- C3: when two contacts both pass `validateContact` and their emails have the
same lower-casing, and creating the first answers 201, creating the second
right afterwards answers 400 with error `Validation failed` and errors
`email: Email already exists`, and leaves the table as the first request left it. -/
theorem createContact_rejects_duplicate (toLowerCase : String → String) (now1 now2 : String)
    (db : Db) (c1 c2 : Contact) (e1 e2 : String)
    (h1 : validateContact c1 = []) (h2 : validateContact c2 = [])
    (he1 : c1.email = some e1) (he2 : c2.email = some e2)
    (hcase : toLowerCase e1 = toLowerCase e2)
    (hok : (createContact toLowerCase now1 db c1).2.status = 201) :
    createContact toLowerCase now2 (createContact toLowerCase now1 db c1).1 c2 =
      ((createContact toLowerCase now1 db c1).1,
        ⟨400, .validation "Validation failed" [("email", "Email already exists")]⟩) := by
  obtain ⟨n, e, p, hc, _⟩ := valid_fields _ h1
  subst hc
  have hee : e = e1 := by simpa using he1
  subst hee
  obtain ⟨n', e', p', hc', _⟩ := valid_fields _ h2
  subst hc'
  have hee' : e' = e2 := by simpa using he2
  subst hee'
  rw [createContact_of_valid toLowerCase now1 db n e p h1] at hok ⊢
  cases hsel : selectByEmail db (toLowerCase e) with
  | some r =>
    rw [hsel] at hok
    simp at hok
  | none =>
    simp only
    rw [createContact_of_valid toLowerCase now2 _ n' e' p' h2]
    have hfound : (selectByEmail
        ⟨db.rows ++ [⟨max db.seq (maxId db.rows) + 1, trim n, toLowerCase e, trim p, now1, now1⟩],
          max db.seq (maxId db.rows) + 1⟩ (toLowerCase e')).isSome = true := by
      simp only [selectByEmail, List.find?_isSome]
      exact ⟨_, List.mem_append_right _ (List.mem_singleton_self _), by simp [hcase]⟩
    obtain ⟨r, hr⟩ := Option.isSome_iff_exists.mp hfound
    rw [hr]

/-- Creating `johnShout` right after `johnDoe` is rejected as a duplicate. -/
theorem createContact_rejects_duplicate_witness :
    createContact asciiLower "2024-05-01 10:00:05"
        (createContact asciiLower "2024-05-01 10:00:00" emptyDb johnDoe).1 johnShout =
      ((createContact asciiLower "2024-05-01 10:00:00" emptyDb johnDoe).1,
        ⟨400, .validation "Validation failed" [("email", "Email already exists")]⟩) :=
  createContact_rejects_duplicate asciiLower "2024-05-01 10:00:00" "2024-05-01 10:00:05" emptyDb
    johnDoe johnShout "John.Doe@Example.com" "JOHN.DOE@EXAMPLE.COM"
    (by decide) (by decide) rfl rfl (by decide) (by decide)

theorem selectById_isSome (db : Db) (id : Nat) (h : ∃ r ∈ db.rows, r.id = id) :
    ∃ row, selectById db id = some row := by
  apply Option.isSome_iff_exists.mp
  simp only [selectById, List.find?_isSome]
  obtain ⟨r, hr, hid⟩ := h
  exact ⟨r, hr, by simp [hid]⟩

theorem keys_length_pos (c : Contact) (h : validateContact c ≠ []) :
    (keys (validateContact c)).length > 0 := by
  unfold keys
  rw [List.length_map]
  exact List.length_pos.mpr h

/-- C5 (as stated) fails: on the empty table, `PUT /api/contacts/1` with a body
that has no field answers 400 with the three validation errors, whatever the
lower-casing function is, although no contact has the id 1. -/
theorem replaceContact_validates_before_lookup :
    (∀ r ∈ emptyDb.rows, r.id ≠ 1) ∧
    ∀ (toLowerCase : String → String) (now : String),
      replaceContact toLowerCase now emptyDb 1 ⟨none, none, none⟩ =
        (emptyDb, ⟨400, .validation "Validation failed"
          [("name", "Name is required"), ("email", "Email is required"),
            ("phone", "Phone is required")]⟩) :=
  ⟨by simp [emptyDb], fun _ _ => rfl⟩

/-- C5 (amended): for a request body whose name, email and phone are each
absent or a string, and an id that no stored contact has, `PUT` leaves the table
unchanged; it answers 404 `Contact not found` when the body passes
`validateContact`, and 400 `Validation failed` with the errors of
`validateContact` when it does not: validation comes before the lookup. -/
theorem replaceContact_missing_id (toLowerCase : String → String) (now : String) (db : Db)
    (id : Nat) (body : Contact) (hid : ∀ r ∈ db.rows, r.id ≠ id) :
    (replaceContact toLowerCase now db id body).1 = db ∧
    (validateContact body = [] →
      (replaceContact toLowerCase now db id body).2 = ⟨404, .error "Contact not found"⟩) ∧
    (validateContact body ≠ [] →
      (replaceContact toLowerCase now db id body).2 =
        ⟨400, .validation "Validation failed" (validateContact body)⟩) := by
  have hnone : selectById db id = none := (selectById_eq_none db id).mpr hid
  by_cases hv : validateContact body = []
  · obtain ⟨n, e, p, hc, _⟩ := valid_fields _ hv
    subst hc
    simp [replaceContact, hv, keys, hnone]
  · have hpos := keys_length_pos body hv
    simp [replaceContact, hv, hpos]

/-- On the table that holds `johnDoe` with id 1, a `PUT` of the missing id 7
answers 404 for the valid body `janeRoe` and 400 with the two validation errors
for a body with a malformed email and no phone; the table is unchanged. -/
theorem replaceContact_missing_id_witness :
    (createContact asciiLower "2024-05-01 10:00:00" emptyDb johnDoe).1.rows =
      [⟨1, "John Doe", "john.doe@example.com", "+1234567890",
        "2024-05-01 10:00:00", "2024-05-01 10:00:00"⟩] ∧
    replaceContact asciiLower "2024-05-01 10:00:07"
        (createContact asciiLower "2024-05-01 10:00:00" emptyDb johnDoe).1 7 janeRoe =
      ((createContact asciiLower "2024-05-01 10:00:00" emptyDb johnDoe).1,
        ⟨404, .error "Contact not found"⟩) ∧
    replaceContact asciiLower "2024-05-01 10:00:07"
        (createContact asciiLower "2024-05-01 10:00:00" emptyDb johnDoe).1 7
        ⟨some "Ann Lee", some "invalid-email", none⟩ =
      ((createContact asciiLower "2024-05-01 10:00:00" emptyDb johnDoe).1,
        ⟨400, .validation "Validation failed"
          [("email", "Invalid email format"), ("phone", "Phone is required")]⟩) :=
  have h1 := replaceContact_missing_id asciiLower "2024-05-01 10:00:07"
    (createContact asciiLower "2024-05-01 10:00:00" emptyDb johnDoe).1 7 janeRoe (by decide)
  have h2 := replaceContact_missing_id asciiLower "2024-05-01 10:00:07"
    (createContact asciiLower "2024-05-01 10:00:00" emptyDb johnDoe).1 7
    ⟨some "Ann Lee", some "invalid-email", none⟩ (by decide)
  ⟨by decide, Prod.ext h1.1 (h1.2.1 (by decide)),
    Prod.ext h2.1 ((h2.2.2 (by decide)).trans (by decide))⟩

/-- C6: deleting the id of a stored contact answers 200 with that id in the
body, keeps exactly the rows with another id (each unchanged, in the same
order), and a read of the same id then answers 404; deleting an id that is not
stored answers 404 and leaves the database unchanged. -/
theorem deleteContact_removes_row (db : Db) (id : Nat) :
    ((∃ r ∈ db.rows, r.id = id) →
      (deleteContact db id).2 = ⟨200, .deleted "Contact deleted successfully" id⟩ ∧
      (deleteContact db id).1 = ⟨db.rows.filter (fun r => r.id != id), db.seq⟩ ∧
      (∀ r, r ∈ (deleteContact db id).1.rows ↔ r ∈ db.rows ∧ r.id ≠ id) ∧
      getContact (deleteContact db id).1 id = ⟨404, .error "Contact not found"⟩) ∧
    ((∀ r ∈ db.rows, r.id ≠ id) →
      deleteContact db id = (db, ⟨404, .error "Contact not found"⟩)) := by
  constructor
  · intro h
    obtain ⟨row, hrow⟩ := selectById_isSome db id h
    have hdel : deleteContact db id =
        (deleteById db id, ⟨200, .deleted "Contact deleted successfully" id⟩) := by
      simp [deleteContact, hrow]
    rw [hdel]
    refine ⟨rfl, rfl, ?_, ?_⟩
    · intro r
      simp [deleteById]
    · have hgone : selectById (deleteById db id) id = none := by
        rw [selectById_eq_none]
        intro r hr
        simp only [deleteById, List.mem_filter, bne_iff_ne] at hr
        exact hr.2
      simp [getContact, hgone]
  · intro h
    have hnone : selectById db id = none := (selectById_eq_none db id).mpr h
    simp [deleteContact, hnone]

/-- Deleting the stored id 1 and the missing id 2 after one creation. -/
theorem deleteContact_removes_row_witness :
    ((deleteContact (createContact asciiLower "2024-05-01 10:00:00" emptyDb johnDoe).1 1).2 =
        ⟨200, .deleted "Contact deleted successfully" 1⟩ ∧
      getContact (deleteContact (createContact asciiLower "2024-05-01 10:00:00" emptyDb johnDoe).1
        1).1 1 = ⟨404, .error "Contact not found"⟩) ∧
    deleteContact (createContact asciiLower "2024-05-01 10:00:00" emptyDb johnDoe).1 2 =
      ((createContact asciiLower "2024-05-01 10:00:00" emptyDb johnDoe).1,
        ⟨404, .error "Contact not found"⟩) :=
  have h1 := (deleteContact_removes_row
    (createContact asciiLower "2024-05-01 10:00:00" emptyDb johnDoe).1 1).1 (by decide)
  have h2 := (deleteContact_removes_row
    (createContact asciiLower "2024-05-01 10:00:00" emptyDb johnDoe).1 2).2 (by decide)
  ⟨⟨h1.1, h1.2.2.2⟩, h2⟩

/-- C7: `PATCH` on an id that is not stored answers 404 whatever the body is,
and `PATCH` on a stored id with a body none of whose keys is `name`, `email` or
`phone` answers 400 with error `No valid fields to update`; both leave the
database unchanged. -/
theorem patchContact_rejections (now : String) (db : Db) (id : Nat)
    (updates : List (String × Option String)) :
    ((∀ r ∈ db.rows, r.id ≠ id) →
      patchContact now db id updates = (db, ⟨404, .error "Contact not found"⟩)) ∧
    ((∃ r ∈ db.rows, r.id = id) →
      (∀ kv ∈ updates, kv.1 ≠ "name" ∧ kv.1 ≠ "email" ∧ kv.1 ≠ "phone") →
      patchContact now db id updates = (db, ⟨400, .error "No valid fields to update"⟩)) := by
  constructor
  · intro h
    have hnone : selectById db id = none := (selectById_eq_none db id).mpr h
    simp [patchContact, hnone]
  · intro h hkeys
    obtain ⟨row, hrow⟩ := selectById_isSome db id h
    have hfields : (updates.map Prod.fst).filter
        (fun key => ["name", "email", "phone"].contains key) = [] := by
      rw [List.filter_eq_nil_iff]
      intro k hk
      obtain ⟨kv, hkv, rfl⟩ := List.mem_map.mp hk
      obtain ⟨a, b, c⟩ := hkeys kv hkv
      simp [a, b, c]
    simp only [patchContact, hrow, hfields]
    rfl

/-- A `PATCH` of a missing id, and one of a stored id with irrelevant keys only. -/
theorem patchContact_rejections_witness :
    patchContact "2024-05-01 10:00:09" emptyDb 3 [] = (emptyDb, ⟨404, .error "Contact not found"⟩) ∧
    patchContact "2024-05-01 10:00:09"
        (createContact asciiLower "2024-05-01 10:00:00" emptyDb johnDoe).1 1
        [("id", some "9"), ("nickname", some "JD")] =
      ((createContact asciiLower "2024-05-01 10:00:00" emptyDb johnDoe).1,
        ⟨400, .error "No valid fields to update"⟩) :=
  ⟨(patchContact_rejections "2024-05-01 10:00:09" emptyDb 3 []).1 (by simp [emptyDb]),
   (patchContact_rejections "2024-05-01 10:00:09"
      (createContact asciiLower "2024-05-01 10:00:00" emptyDb johnDoe).1 1
      [("id", some "9"), ("nickname", some "JD")]).2 (by decide) (by decide)⟩

theorem ceilDiv_eq_ceil (a b : Nat) (hb : 0 < b) :
    ((ceilDiv a b : Nat) : ℤ) = ⌈(a : ℚ) / (b : ℚ)⌉ := by
  symm
  rw [Int.ceil_eq_iff]
  have hbq : (0 : ℚ) < (b : ℚ) := by exact_mod_cast hb
  have h1 : (a + b - 1) / b * b ≤ a + b - 1 := Nat.div_mul_le_self _ _
  have h2 : a + b - 1 < ((a + b - 1) / b + 1) * b := by
    rw [Nat.mul_comm]
    exact Nat.lt_mul_div_succ _ hb
  have h3 : (a + b - 1) / b * b < a + b := by omega
  have h4 : a ≤ (a + b - 1) / b * b := by
    rw [Nat.add_mul, Nat.one_mul] at h2
    omega
  unfold ceilDiv
  generalize (a + b - 1) / b = k at h1 h2 h3 h4 ⊢
  have h3q : ((k : ℚ)) * (b : ℚ) < (a : ℚ) + (b : ℚ) := by exact_mod_cast h3
  have h4q : (a : ℚ) ≤ (k : ℚ) * (b : ℚ) := by exact_mod_cast h4
  rw [Int.cast_natCast]
  constructor
  · rw [lt_div_iff₀ hbq]
    linarith
  · rw [div_le_iff₀ hbq]
    exact h4q

theorem selectPage_length (toLowerCase : String → String) (db : Db) (q : Query) :
    (selectPage toLowerCase db q).length ≤ q.limit.getD 10 := by
  unfold selectPage
  simp only [List.length_take]
  exact Nat.min_le_left _ _

theorem selectPage_subset (toLowerCase : String → String) (db : Db) (q : Query) :
    ∀ r ∈ selectPage toLowerCase db q, r ∈ db.rows := by
  intro r hr
  unfold selectPage at hr
  have h1 := List.mem_of_mem_drop (List.mem_of_mem_take hr)
  rw [List.mem_insertionSort] at h1
  split at h1
  · exact (List.mem_filter.mp h1).1
  · exact h1

/-- C8: for every database, search string and positive `page` and `limit`, the
listing answers 200 with a `data` array of at most `limit` stored rows and the
pagination object whose `total` is the number of all rows of the table, whose
`page` and `limit` are the requested values and whose `totalPages` is the
ceiling of `total / limit`. -/
theorem listContacts_pagination (toLowerCase : String → String) (db : Db)
    (search sortBy order : Option String) (page limit : Nat)
    (hpage : 0 < page) (hlimit : 0 < limit) :
    ∃ data totalPages,
      listContacts toLowerCase db ⟨search, sortBy, order, some page, some limit⟩ =
        ⟨200, .listing data ⟨db.rows.length, page, limit, totalPages⟩⟩ ∧
      data.length ≤ limit ∧
      (∀ r ∈ data, r ∈ db.rows) ∧
      (totalPages : ℤ) = ⌈(db.rows.length : ℚ) / (limit : ℚ)⌉ := by
  have _ := hpage
  exact ⟨selectPage toLowerCase db ⟨search, sortBy, order, some page, some limit⟩,
    ceilDiv db.rows.length limit, rfl,
    selectPage_length toLowerCase db ⟨search, sortBy, order, some page, some limit⟩,
    selectPage_subset toLowerCase db ⟨search, sortBy, order, some page, some limit⟩,
    ceilDiv_eq_ceil _ _ hlimit⟩

/-- The second page of size one of a table of two rows, with a search that
matches nothing: `total` is still 2. -/
theorem listContacts_pagination_witness :
    ∃ data totalPages,
      listContacts asciiLower (run asciiLower emptyDb patchTrace)
          ⟨some "zzz", some "email", some "desc", some 2, some 1⟩ =
        ⟨200, .listing data ⟨2, 2, 1, totalPages⟩⟩ ∧
      data.length ≤ 1 ∧
      (totalPages : ℤ) = ⌈((2 : Nat) : ℚ) / ((1 : Nat) : ℚ)⌉ := by
  obtain ⟨data, totalPages, h1, h2, _, h4⟩ :=
    listContacts_pagination asciiLower (run asciiLower emptyDb patchTrace)
      (some "zzz") (some "email") (some "desc") 2 1 (by decide) (by decide)
  have hlen : (run asciiLower emptyDb patchTrace).rows.length = 2 := by decide
  rw [hlen] at h1 h4
  exact ⟨data, totalPages, h1, h2, h4⟩

theorem sortField_mem (q : Query) : sortField q ∈ ["name", "email", "phone", "created_at"] := by
  unfold sortField
  simp only
  split
  · rename_i h
    simpa using h
  · simp

theorem sortOrder_cases (toLowerCase : String → String) (q : Query) :
    sortOrder toLowerCase q = "ASC" ∨ sortOrder toLowerCase q = "DESC" := by
  unfold sortOrder
  simp only
  split
  · exact Or.inr rfl
  · exact Or.inl rfl

/-- C10: the sort column is `sortBy` when it is one of `name`, `email`, `phone`,
`created_at` and `name` otherwise (also when absent); the direction is `DESC`
exactly when an `order` is given whose lower-casing is `desc`, and `ASC`
otherwise; so the ordering text of the statement is one of eight fixed strings,
and the listing answers 200 whatever the two values are.  The lower-casing
function is assumed to leave the default `asc` unchanged. -/
theorem sort_resolution (toLowerCase : String → String) (hasc : toLowerCase "asc" = "asc")
    (db : Db) (q : Query) :
    (∀ s, q.sortBy = some s → s ∈ ["name", "email", "phone", "created_at"] → sortField q = s) ∧
    (∀ s, q.sortBy = some s → s ∉ ["name", "email", "phone", "created_at"] →
      sortField q = "name") ∧
    (q.sortBy = none → sortField q = "name") ∧
    (sortOrder toLowerCase q = "DESC" ↔ ∃ o, q.order = some o ∧ toLowerCase o = "desc") ∧
    (sortOrder toLowerCase q = "ASC" ↔ ¬ ∃ o, q.order = some o ∧ toLowerCase o = "desc") ∧
    orderByClause toLowerCase q ∈
      [" ORDER BY name ASC", " ORDER BY name DESC", " ORDER BY email ASC",
        " ORDER BY email DESC", " ORDER BY phone ASC", " ORDER BY phone DESC",
        " ORDER BY created_at ASC", " ORDER BY created_at DESC"] ∧
    (listContacts toLowerCase db q).status = 200 := by
  have hne : ("DESC" = "ASC") = False := by decide
  have hdesc : (toLowerCase (q.order.getD "asc") == "desc") = true ↔
      ∃ o, q.order = some o ∧ toLowerCase o = "desc" := by
    cases ho : q.order with
    | none =>
      have : ("asc" = "desc") = False := by decide
      simp [hasc, this]
    | some o => simp
  refine ⟨?_, ?_, ?_, ?_, ?_, ?_, rfl⟩
  · intro s hs hmem
    have hc : ["name", "email", "phone", "created_at"].contains s = true := by simpa using hmem
    simp only [sortField, hs, Option.getD_some, hc, if_true]
  · intro s hs hmem
    have hc : ["name", "email", "phone", "created_at"].contains s = false := by simpa using hmem
    simp only [sortField, hs, Option.getD_some, hc, Bool.false_eq_true, if_false]
  · intro hs
    simp only [sortField, hs, Option.getD_none]
    decide
  · rw [← hdesc]
    unfold sortOrder
    simp only
    split
    · simp [*]
    · simp [*]
  · rw [← hdesc]
    unfold sortOrder
    simp only
    split
    · simp [*]
    · simp [*]
  · have hf := sortField_mem q
    simp only [List.mem_cons, List.mem_singleton, List.not_mem_nil, or_false] at hf
    unfold orderByClause
    rcases hf with hf | hf | hf | hf <;>
      rcases sortOrder_cases toLowerCase q with ho | ho <;>
      rw [hf, ho] <;> decide

/-- A `sortBy` that is not a column falls back to `name`, and `DeSc` is `DESC`. -/
theorem sort_resolution_witness :
    sortField ⟨none, some "id; DROP TABLE contacts", some "DeSc", none, none⟩ = "name" ∧
    sortOrder asciiLower ⟨none, some "id; DROP TABLE contacts", some "DeSc", none, none⟩ =
      "DESC" ∧
    (listContacts asciiLower emptyDb
      ⟨none, some "id; DROP TABLE contacts", some "DeSc", none, none⟩).status = 200 :=
  have h := sort_resolution asciiLower (by decide) emptyDb
    ⟨none, some "id; DROP TABLE contacts", some "DeSc", none, none⟩
  ⟨h.2.1 _ rfl (by decide), h.2.2.2.1.mpr ⟨"DeSc", rfl, by decide⟩, h.2.2.2.2.2.2⟩

theorem phone_accepted_length (c : Contact) (phone : String) (hp : c.phone = some phone)
    (h : "phone" ∉ keys (validateContact c)) :
    10 ≤ phone.length ∧ phone.length ≤ 26 := by
  rw [keys_validateContact] at h
  have hok : (isMissing c.phone || !(test phoneRe ((c.phone.getD "").data))) = false := by
    cases hb : (isMissing c.phone || !(test phoneRe ((c.phone.getD "").data)))
    · rfl
    · simp [hb] at h
  rw [hp] at hok
  simp only [Option.getD_some, Bool.or_eq_false_iff, Bool.not_eq_false'] at hok
  exact phone_length _ ((test_iff_matches _ _).mp hok.2)

/-- C9 (the code at the failing input): a phone number made of a plus sign and
25 digits has 26 characters and is accepted by `validateContact`, so it is
created and stored as it is although the error message and the column
declaration speak of at most 25 characters. -/
theorem validateContact_accepts_26_characters :
    longPhone.length = 26 ∧
    validateContact ⟨some "Ann Lee", some "ann.lee@example.com", some longPhone⟩ = [] ∧
    (createContact asciiLower "2024-05-01 10:00:00" emptyDb
      ⟨some "Ann Lee", some "ann.lee@example.com", some longPhone⟩).2 =
      ⟨201, .contact ⟨1, "Ann Lee", "ann.lee@example.com", longPhone,
        "2024-05-01 10:00:00", "2024-05-01 10:00:00"⟩⟩ := by
  refine ⟨by decide, by decide, by decide⟩

/-- C4 (the code at the failing input): after two creations, a `PATCH` of the
second contact with the email of the first one in capitals answers through the
database without error; the stored email is then not lower-cased and has the
same lower-casing as the email of the first contact, so the email property of
the data model does not hold in a reachable state. -/
theorem patch_breaks_email_invariant :
    (run asciiLower emptyDb patchTrace).rows =
      [⟨1, "John Doe", "john.doe@example.com", "+1234567890",
          "2024-05-01 10:00:00", "2024-05-01 10:00:00"⟩,
        ⟨2, "Jane Roe", "JOHN.DOE@EXAMPLE.COM", "555 010 2222",
          "2024-05-01 10:00:05", "2024-05-01 10:00:09"⟩] ∧
    asciiLower (trim "JOHN.DOE@EXAMPLE.COM") ≠ "JOHN.DOE@EXAMPLE.COM" ∧
    asciiLower "john.doe@example.com" = asciiLower "JOHN.DOE@EXAMPLE.COM" ∧
    ¬ EmailInvariant asciiLower (run asciiLower emptyDb patchTrace) := by
  have hrows : (run asciiLower emptyDb patchTrace).rows =
      [⟨1, "John Doe", "john.doe@example.com", "+1234567890",
          "2024-05-01 10:00:00", "2024-05-01 10:00:00"⟩,
        ⟨2, "Jane Roe", "JOHN.DOE@EXAMPLE.COM", "555 010 2222",
          "2024-05-01 10:00:05", "2024-05-01 10:00:09"⟩] := by decide
  refine ⟨hrows, by decide, by decide, ?_⟩
  rintro ⟨_, hpair⟩
  rw [hrows] at hpair
  have h := (List.pairwise_cons.mp hpair).1 _ (List.mem_singleton_self _)
  exact h (by decide)

/-! ## The email property without `PATCH` -/

theorem storeOk_emailInvariant (toLowerCase : String → String) (db : Db)
    (h : StoreOk toLowerCase db) : EmailInvariant toLowerCase db := by
  obtain ⟨hrows, hpair⟩ := h
  constructor
  · intro r hr
    have hr2 := hrows r hr
    have ht : trim r.email = r.email := by
      unfold trim
      rw [trimChars_eq_self _ hr2.2]
    rw [ht, hr2.1]
  · refine hpair.imp_of_mem ?_
    intro a b ha hb hab
    rw [(hrows a ha).1, (hrows b hb).1]
    exact hab.2

theorem storeOk_createContact (toLowerCase : String → String)
    (hidem : ∀ s, toLowerCase (toLowerCase s) = toLowerCase s)
    (hws : ∀ s : String, (∀ c ∈ s.data, isWhiteSpace c = false) →
      ∀ c ∈ (toLowerCase s).data, isWhiteSpace c = false)
    (now : String) (db : Db) (body : Contact) (h : StoreOk toLowerCase db) :
    StoreOk toLowerCase (createContact toLowerCase now db body).1 := by
  by_cases hv : validateContact body = []
  · obtain ⟨n, e, p, hc, hm⟩ := valid_fields _ hv
    subst hc
    rw [createContact_of_valid toLowerCase now db n e p hv]
    cases hsel : selectByEmail db (toLowerCase e) with
    | some r => exact h
    | none =>
      simp only [selectByEmail, List.find?_eq_none] at hsel
      obtain ⟨hrows, hpair⟩ := h
      constructor
      · intro r hr
        rcases List.mem_append.mp hr with hr | hr
        · exact hrows r hr
        · rw [List.mem_singleton.mp hr]
          exact ⟨hidem e, hws e (email_no_white_space _ hm)⟩
      · show List.Pairwise _ (db.rows ++ [_])
        rw [List.pairwise_append]
        refine ⟨hpair, List.pairwise_singleton _ _, ?_⟩
        intro a ha b hb
        rw [List.mem_singleton.mp hb]
        have h1 := le_maxId db.rows a ha
        have h2 := hsel a ha
        constructor
        · show a.id ≠ max db.seq (maxId db.rows) + 1
          omega
        · simpa using h2
  · have hpos := keys_length_pos body hv
    simp only [createContact, hpos, if_true]
    exact h

theorem replaceContact_db (toLowerCase : String → String) (now : String) (db : Db) (id : Nat)
    (body : Contact) :
    (replaceContact toLowerCase now db id body).1 = db ∨
    ∃ n e p, Matches emailRe e.data ∧
      (∀ r ∈ db.rows, r.email = toLowerCase e → r.id = id) ∧
      (replaceContact toLowerCase now db id body).1 =
        ⟨db.rows.map fun r =>
          if r.id == id then ⟨r.id, trim n, toLowerCase e, trim p, r.created_at, now⟩ else r,
          db.seq⟩ := by
  by_cases hv : validateContact body = []
  · obtain ⟨n, e, p, hc, hm⟩ := valid_fields _ hv
    subst hc
    simp only [replaceContact, hv, keys, List.map_nil, List.length_nil, gt_iff_lt,
      lt_self_iff_false, if_false]
    cases hsel : selectById db id with
    | none => exact Or.inl rfl
    | some row =>
      cases hdup : selectByEmailExcept db (toLowerCase e) id with
      | some r => exact Or.inl rfl
      | none =>
        simp only [update, hsel, List.find?, Option.isNone_some, trim_eq_self_of_email e hm]
        split
        · exact Or.inl rfl
        · rename_i db1 heq
          right
          refine ⟨n, e, p, hm, ?_, ?_⟩
          · simp only [selectByEmailExcept, List.find?_eq_none] at hdup
            intro r hr hre
            have := hdup r hr
            simpa [hre] using this
          · split at heq
            · cases heq
            · cases heq
              rfl
  · left
    have hpos := keys_length_pos body hv
    simp only [replaceContact, hpos, if_true]

theorem storeOk_replaceContact (toLowerCase : String → String)
    (hidem : ∀ s, toLowerCase (toLowerCase s) = toLowerCase s)
    (hws : ∀ s : String, (∀ c ∈ s.data, isWhiteSpace c = false) →
      ∀ c ∈ (toLowerCase s).data, isWhiteSpace c = false)
    (now : String) (db : Db) (id : Nat) (body : Contact) (h : StoreOk toLowerCase db) :
    StoreOk toLowerCase (replaceContact toLowerCase now db id body).1 := by
  rcases replaceContact_db toLowerCase now db id body with hsame | ⟨n, e, p, hm, hdup, hnew⟩
  · rw [hsame]
    exact h
  · rw [hnew]
    obtain ⟨hrows, hpair⟩ := h
    constructor
    · intro r hr
      obtain ⟨r0, hr0, rfl⟩ := List.mem_map.mp hr
      by_cases hid : (r0.id == id) = true
      · simp only [hid, if_true]
        exact ⟨hidem e, hws e (email_no_white_space _ hm)⟩
      · simp only [hid, if_false]
        exact hrows r0 hr0
    · show List.Pairwise _ (List.map _ db.rows)
      rw [List.pairwise_map]
      refine hpair.imp_of_mem ?_
      intro a b ha hb hab
      by_cases hida : (a.id == id) = true <;> by_cases hidb : (b.id == id) = true <;>
        simp only [hida, hidb, if_true, if_false]
      · exact absurd ((beq_iff_eq.mp hida).trans (beq_iff_eq.mp hidb).symm) hab.1
      · refine ⟨hab.1, fun hne => hidb ?_⟩
        exact beq_iff_eq.mpr (hdup b hb hne.symm)
      · refine ⟨hab.1, fun hne => hida ?_⟩
        exact beq_iff_eq.mpr (hdup a ha hne)
      · exact hab

theorem storeOk_deleteContact (toLowerCase : String → String) (db : Db) (id : Nat)
    (h : StoreOk toLowerCase db) : StoreOk toLowerCase (deleteContact db id).1 := by
  unfold deleteContact
  cases selectById db id with
  | none => exact h
  | some row =>
    obtain ⟨hrows, hpair⟩ := h
    exact ⟨fun r hr => hrows r (List.mem_filter.mp hr).1, hpair.filter _⟩

/-- Without `PATCH` the email property of the data model holds in every
reachable state, for every lower-casing function that is idempotent and does
not introduce white space. -/
theorem email_invariant_without_patch (toLowerCase : String → String)
    (hidem : ∀ s, toLowerCase (toLowerCase s) = toLowerCase s)
    (hws : ∀ s : String, (∀ c ∈ s.data, isWhiteSpace c = false) →
      ∀ c ∈ (toLowerCase s).data, isWhiteSpace c = false)
    (reqs : List (String × Request)) (hno : ∀ p ∈ reqs, p.2.isPatch = false) :
    EmailInvariant toLowerCase (run toLowerCase emptyDb reqs) := by
  apply storeOk_emailInvariant
  have hstart : StoreOk toLowerCase emptyDb := by
    constructor
    · intro r hr
      simp [emptyDb] at hr
    · exact List.Pairwise.nil
  generalize emptyDb = db at hstart
  induction reqs generalizing db with
  | nil => exact hstart
  | cons p rest ih =>
    obtain ⟨now, req⟩ := p
    have hreq := hno (now, req) (List.mem_cons_self _ _)
    apply ih (fun q hq => hno q (List.mem_cons_of_mem _ hq))
    cases req with
    | post body => exact storeOk_createContact toLowerCase hidem hws now db body hstart
    | put id body => exact storeOk_replaceContact toLowerCase hidem hws now db id body hstart
    | patch id updates => simp [Request.isPatch] at hreq
    | delete id => exact storeOk_deleteContact toLowerCase db id hstart

theorem toLower_cases (c : Char) :
    Char.toLower c = c ∨
      (65 ≤ c.toNat ∧ c.toNat ≤ 90 ∧ 97 ≤ (Char.toLower c).toNat ∧
        (Char.toLower c).toNat ≤ 122) := by
  by_cases h : 65 ≤ c.toNat ∧ c.toNat ≤ 90
  · right
    refine ⟨h.1, h.2, ?_⟩
    have hc : c = Char.ofNat c.toNat := (Char.ofNat_toNat c).symm
    obtain ⟨h1, h2⟩ := h
    generalize c.toNat = n at hc h1 h2
    subst hc
    interval_cases n <;> decide
  · left
    unfold Char.toLower
    simp only [ge_iff_le]
    rw [if_neg h]

theorem asciiLower_idem (s : String) : asciiLower (asciiLower s) = asciiLower s := by
  unfold asciiLower
  simp only [List.map_map]
  congr 1
  apply List.map_congr_left
  intro c _
  show Char.toLower (Char.toLower c) = Char.toLower c
  rcases toLower_cases c with h | ⟨_, _, h3, h4⟩
  · rw [h, h]
  · rcases toLower_cases (Char.toLower c) with h | ⟨h5, h6, _, _⟩
    · exact h
    · omega

theorem asciiLower_white_space (s : String) (h : ∀ c ∈ s.data, isWhiteSpace c = false) :
    ∀ c ∈ (asciiLower s).data, isWhiteSpace c = false := by
  intro c hc
  obtain ⟨c0, hc0, rfl⟩ := List.mem_map.mp hc
  rcases toLower_cases c0 with h0 | ⟨_, _, h3, h4⟩
  · rw [h0]
    exact h c0 hc0
  · unfold isWhiteSpace
    generalize (Char.toLower c0).toNat = m at h3 h4
    interval_cases m <;> decide

/-- The email property holds after every sequence of `POST`, `PUT` and `DELETE`
requests evaluated with the ASCII lower-casing. -/
theorem email_invariant_without_patch_ascii (reqs : List (String × Request))
    (hno : ∀ p ∈ reqs, p.2.isPatch = false) :
    EmailInvariant asciiLower (run asciiLower emptyDb reqs) :=
  email_invariant_without_patch asciiLower asciiLower_idem asciiLower_white_space reqs hno

end ContactsApi
